import Mathlib

/-!  Verification of the incremental synchronization and merge engine of
`jira_dataframes.py` (class `jira_project_dataframes`).  The development
gives a shallow embedding of the merge operation `update_dataframe`
(lines 369-422), the watermark resolution `get_issues_file_mod_date`
(lines 202-220) together with the routing in `get_project_data`
(lines 475-495), the record-normalizer branches of
`data_part_to_dataframe` for the parent issues table (lines 268-291) and
the comments child table (lines 336-359), the helper `ifnull`
(lines 110-131), and the per-table loop `refresh_data_part` /
`get_project_data` (lines 424-446, 493-495), and proves or refutes the
stated properties of the merge engine, normalizer and orchestrator.  -/

namespace Jira

/-- One normalized row of a table as handled by `update_dataframe`:
`key` is the value of the row in the key column of its table (the
`key_column` argument), `issue_key` is the value of the foreign-key column
`issue_key` that every one of the six tables carries, and `payload`
abstracts the content of all remaining columns of the row.  The
`set_index` / `reset_index` steps of the source (lines 404-405) only move
the key column to the front, which this record model does not distinguish. -/
structure Row where
  key : Nat
  issue_key : String
  payload : String
deriving DecidableEq, Repr

/-- External helper `ist.dataframe_has_rows` from `pyIS.IS_ToolBox`
(an external collaborator library, not part of this repository): a
dataframe argument counts as having rows exactly when it is not Python
None and contains at least one row. -/
def dataframe_has_rows : Option (List Row) → Bool
  | none => false
  | some l => !l.isEmpty

/-- Line 394: `issue_keys = list(set(updated_df[...].tolist()))` — the
collection of foreign-key values occurring in the incoming rows.  Only
membership in this collection is ever used (`isin` on line 397), so the
set-to-list round trip is modelled by the plain list of values. -/
def issueKeysOf (updated_df : List Row) : List String :=
  updated_df.map Row.issue_key

/-- Line 397: `existing_df[~existing_df[...].isin(issue_keys)]` — drop
from the existing rows every row whose foreign-key value occurs in the
incoming batch. -/
def removeUpdatedIssues (existing_df updated_df : List Row) : List Row :=
  existing_df.filter (fun r => !((issueKeysOf updated_df).contains r.issue_key))

/-- Deduplication by the key column keeping the first occurrence, with an
accumulator of already seen key values: models pandas
`drop_duplicates(key_column)` (default keep is the first occurrence). -/
def dedupGo (seen : List Nat) : List Row → List Row
  | [] => []
  | r :: rs =>
    if seen.contains r.key then dedupGo seen rs
    else r :: dedupGo (r.key :: seen) rs

/-- Line 402: `return_df.drop_duplicates(key_column)`. -/
def drop_duplicates (l : List Row) : List Row := dedupGo [] l

/-- Comparison of rows by their key-column value, the order used by
`sort_values(key_column)`. -/
def rowLe (a b : Row) : Prop := a.key ≤ b.key

instance : DecidableRel rowLe := fun a b => (inferInstance : Decidable (a.key ≤ b.key))

instance : IsTotal Row rowLe := ⟨fun a b => Nat.le_total a.key b.key⟩

instance : IsTrans Row rowLe := ⟨fun _ _ _ h h2 => Nat.le_trans h h2⟩

/-- Line 403: `return_df.sort_values(key_column)` (ascending).  In the
source this sort is only ever applied to the output of
`drop_duplicates(key_column)`, whose key values are pairwise distinct, so
every comparison sort produces the same list; it is modelled by insertion
sort on the key order. -/
def sort_values (l : List Row) : List Row := List.insertionSort rowLe l

/-- Lines 369-422, `update_dataframe(existing_df, updated_df, key_column)`:
the Merge Engine.  The branch on `updated & existing` concatenates the
incoming rows before the filtered existing rows, deduplicates on the key
column and sorts; the one-sided branches return the present side as is;
with neither side present the result stays None. -/
def update_dataframe (existing_df updated_df : Option (List Row)) : Option (List Row) :=
  let existing := dataframe_has_rows existing_df
  let updated := dataframe_has_rows updated_df
  if updated && existing then
    let existing_rows := existing_df.getD []
    let updated_rows := updated_df.getD []
    let filtered := removeUpdatedIssues existing_rows updated_rows
    some (sort_values (drop_duplicates (updated_rows ++ filtered)))
  else if updated && !existing then updated_df
  else if !updated && existing then existing_df
  else none

/-- The `ist.msg` report emitted by `update_dataframe`, branch by branch
(lines 409, 414, 419); the message of the both-present branch (line 399)
is commented out in the source, so that branch reports nothing. -/
def update_dataframe_message (existing_df updated_df : Option (List Row)) : Option String :=
  let existing := dataframe_has_rows existing_df
  let updated := dataframe_has_rows updated_df
  if updated && existing then none
  else if updated && !existing then
    some "updated_dataframe(): missing existing dataframe; returning updated dataframe"
  else if !updated && existing then
    some "updated_dataframe(): missing updated dataframe; returning existing dataframe"
  else
    some "update_dataframe(): there is neither an existing nor updated dataframe passed"

/-- Lines 424-446, `refresh_data_part`, restricted to its merge-and-persist
step: `final_df = update_dataframe(existing_df, updated_df, key_name)`
followed by `final_df.to_csv(file_path, index=False)`.  When the merge
returns Python None, the attribute access `None.to_csv` raises
AttributeError; the write of an actual dataframe is modelled as success. -/
def refresh_data_part (existing_df updated_df : Option (List Row)) : Except String (List Row) :=
  match update_dataframe existing_df updated_df with
  | some final_df => Except.ok final_df
  | none => Except.error "AttributeError: NoneType object has no attribute to_csv"

/-- Lines 493-495, the per-table loop of `get_project_data`: each data part
is refreshed in registry order with no exception handling around the body,
so a raised exception ends the remaining iterations. -/
def refresh_all : List (Option (List Row) × Option (List Row)) → Except String (List (List Row))
  | [] => Except.ok []
  | (e, u) :: rest =>
    match refresh_data_part e u with
    | Except.error s => Except.error s
    | Except.ok df =>
      match refresh_all rest with
      | Except.error s => Except.error s
      | Except.ok dfs => Except.ok (df :: dfs)

/-- Lines 50-54, the Table Registry `data_part_settings`: for each of the
six tables its data-part name, key column name and storage file name, in
registry order. -/
def data_part_settings : List (String × String × String) :=
  [("issues", "issue_key", "ISSUES.csv"),
   ("issue_components", "issue_component_key", "ISSUES_COMPONENTS.csv"),
   ("issue_labels", "issue_label_key", "ISSUES_LABELS.csv"),
   ("issue_stakeholders", "issue_stakeholder_key", "ISSUES_STAKEHOLDERS.csv"),
   ("issue_worklogs", "issue_worklog_id", "ISSUES_WORKLOGS.csv"),
   ("issue_comments", "issue_comments_id", "ISSUES_COMMENTS.csv")]

/-- A Python value, covering the types that flow through `ifnull` at its
call sites: None, a string, a list of strings (a multi-value field whose
elements are read through `str`), an integer, or some other remote object
abstracted by its textual rendering. -/
inductive PyObj where
  | pyNone : PyObj
  | pyStr : String → PyObj
  | pyList : List String → PyObj
  | pyInt : Int → PyObj
  | pyOther : String → PyObj
deriving DecidableEq, Repr

/-- Line 123, the test `type(value) is None`: Python `type` returns the
class object of the value (for the None singleton this is the class
NoneType), and `is None` is identity with the None singleton.  No class
object is the None singleton, so the test is False for every value. -/
def typeIsNone (_value : PyObj) : Bool := false

/-- Lines 110-131, `ifnull(value, null_value)`: sets the result to
`null_value`, then tests `type(value) is None`; on True it would return
the original value, otherwise it returns `null_value`.  The body raises
nothing, so the bare except branch (also returning `null_value`) is dead. -/
def ifnull (value : PyObj) (null_value : PyObj) : PyObj :=
  if typeIsNone value then value else null_value

/-- Python truthiness of an optional string: None and the empty string are
falsy, every other string is truthy. -/
def pyTruthyStr : Option String → Bool
  | none => false
  | some s => s ≠ ""

/-- A plain ASCII single-quote character as a one-character string. -/
def squote : String := String.singleton (Char.ofNat 39)

/-- Lines 87-108, `make_delimit_ready(x)`: on a truthy argument, replaces
smart double and single quotes with their plain ASCII forms, the form feed
with an underscore and carriage return and line feed with dashes, then
applies a second pass that again replaces the smart quotes and maps the
two-character escape texts backslash-r-backslash-n and backslash-r (raw
string literals in the source) to a dash and three dashes; on a falsy
argument returns the empty string. -/
def make_delimit_ready (x : Option String) : String :=
  if pyTruthyStr x then
    let s := x.getD ""
    let s := s.replace "\u201C" "\""
    let s := s.replace "\u201D" "\""
    let s := s.replace "\u2018" squote
    let s := s.replace "\u2019" squote
    let s := s.replace "\u000C" "_"
    let s := s.replace "\u000D" "-"
    let s := s.replace "\u000A" "-"
    ((((((s.replace "\u201C" "\"").replace "\u201D" "\"").replace "\u2018" squote).replace
        "\u2019" squote).replace "\\r\\n" "-").replace "\\r" "---")
  else ""

/-- The result of `string_to_datetime`: either the datetime parsed by the
external `dateutil.parser.parse` from a given string (the parser is an
external collaborator, modelled as a free constructor on its input), or
the empty string returned for a falsy argument. -/
inductive PyDateTime where
  | parsed : String → PyDateTime
  | emptyString : PyDateTime
deriving DecidableEq, Repr

/-- Lines 73-85, `string_to_datetime(x)`: parse a truthy string with
`dateutil.parser.parse`, return the empty string otherwise. -/
def string_to_datetime (x : Option String) : PyDateTime :=
  if pyTruthyStr x then PyDateTime.parsed (x.getD "") else PyDateTime.emptyString

/-- The attributes of one remote parent record read by the issues branch of
`data_part_to_dataframe` (lines 268-291).  Attributes the source wraps in
`str(...)` are stored as the resulting string; the multi-value attributes
`components`, `labels` and the stakeholder custom field store the list of
per-element `str` renderings; nullable free-text and date attributes are
optional strings; `customfield_10800` is None when the field is unset. -/
structure IssueFields where
  key : String
  summary : String
  description : Option String
  priority : String
  issuetype : String
  status_name : String
  customfield_10800 : Option (List String)
  created : Option String
  duedate : Option String
  lastViewed : Option String
  resolutiondate : Option String
  resolution : String
  aggregatetimespent : Option Int
  assignee : String
  reporter : String
  components : List String
  labels : List String
deriving DecidableEq, Repr

/-- One row of the parent issues table, with the column set written by
lines 271-291. -/
structure IssuesRow where
  issue_key : String
  summary : String
  description : String
  priority : String
  issue_type : String
  status : String
  stakeholders : String
  create_date : PyDateTime
  due_date : PyDateTime
  last_viewed : PyDateTime
  resolution_date : PyDateTime
  resolution : String
  total_seconds_spent : Option Int
  assignee : String
  reporter : String
  components : String
  labels : String
deriving DecidableEq, Repr

/-- The stakeholder custom field as the Python value passed to `ifnull` on
line 277: None when unset, otherwise the list of stakeholder renderings. -/
def pyOfStakeholders : Option (List String) → PyObj
  | none => PyObj.pyNone
  | some l => PyObj.pyList l

/-- Reading a Python value as a list of strings, as the surrounding
`",".join(...)` context of line 277 does; at that call site the value is
always the `ifnull` result.  A non-list value would raise there; the
default branch is unreachable at the modelled call site. -/
def pyStrList : PyObj → List String
  | PyObj.pyList l => l
  | _ => []

/-- Python `",".join(parts)`. -/
def joinComma : List String → String
  | [] => ""
  | [s] => s
  | s :: rest => s ++ "," ++ joinComma rest

/-- Lines 268-291, the `issues` branch of `data_part_to_dataframe`: the one
row emitted for a parent record, column by column in source order.  Line
277 computes the stakeholders column as
`",".join(self.ifnull(issue.fields.customfield_10800, [""]))`. -/
def data_part_issues_row (f : IssueFields) : IssuesRow :=
  { issue_key := f.key
    summary := f.summary
    description := make_delimit_ready f.description
    priority := f.priority
    issue_type := f.issuetype
    status := f.status_name
    stakeholders := joinComma (pyStrList (ifnull (pyOfStakeholders f.customfield_10800)
      (PyObj.pyList [""])))
    create_date := string_to_datetime f.created
    due_date := string_to_datetime f.duedate
    last_viewed := string_to_datetime f.lastViewed
    resolution_date := string_to_datetime f.resolutiondate
    resolution := f.resolution
    total_seconds_spent := f.aggregatetimespent
    assignee := f.assignee
    reporter := f.reporter
    components := joinComma f.components
    labels := joinComma f.labels }

/-- The issues branch over a batch: one row per parent record.  The loop
counter `i` of the source is only used as the dataframe row label for this
table, not as a column, so the rows are a plain map. -/
def data_part_issues (issues : List IssueFields) : List IssuesRow :=
  issues.map data_part_issues_row

/-- One remote comment record as read by the comments branch: the author
display name is absent (attribute access raises AttributeError) for
comments created through a broken email integration; creation date and
body as optional strings. -/
structure Comment where
  author : Option String
  created : Option String
  body : Option String
deriving DecidableEq, Repr

/-- One row of the comments child table (columns of lines 349-359). -/
structure CommentRow where
  issue_comments_id : Nat
  issue_key : String
  author : String
  created : PyDateTime
  body_text : String
deriving DecidableEq, Repr

/-- Lines 336-359: the row written for one comment.  The try branch writes
id, issue key, author display name, created and body; when the author
attribute is missing the access raises AttributeError and the except
branch rewrites the same row with the sentinel author Unknown and the same
remaining columns. -/
def comment_to_row (i : Nat) (issue_key : String) (c : Comment) : CommentRow :=
  match c.author with
  | some name =>
    { issue_comments_id := i
      issue_key := issue_key
      author := name
      created := string_to_datetime c.created
      body_text := make_delimit_ready c.body }
  | none =>
    { issue_comments_id := i
      issue_key := issue_key
      author := "Unknown"
      created := string_to_datetime c.created
      body_text := make_delimit_ready c.body }

/-- The inner loop of the comments branch for one parent record: `i0` is
the number of rows already emitted, and each comment receives the next
sequential id `i = len(return_dataframe) + 1`. -/
def commentRowsForIssue (issue_key : String) (i0 : Nat) : List Comment → List CommentRow
  | [] => []
  | c :: cs => comment_to_row (i0 + 1) issue_key c :: commentRowsForIssue issue_key (i0 + 1) cs

/-- The outer loop of the comments branch over the batch, threading the
row counter across parent records. -/
def data_part_issue_comments_go (i0 : Nat) :
    List (String × List Comment) → List CommentRow
  | [] => []
  | (k, cs) :: rest =>
    commentRowsForIssue k i0 cs ++ data_part_issue_comments_go (i0 + cs.length) rest

/-- Lines 336-359, the `issue_comments` branch of `data_part_to_dataframe`
over a batch of parent records, each paired with the comments the remote
collaborator returns for it. -/
def data_part_issue_comments (issues : List (String × List Comment)) : List CommentRow :=
  data_part_issue_comments_go 0 issues

/-- The value returned by `get_issues_file_mod_date`, as a Python value:
`pyNone` models Python None (never produced by this function), `emptyStr`
the empty string returned when the file is absent, and `dayStr d` a date
string in the format of `strftime(.., "%Y-%m-%d")` denoting day number
`d` (days since the epoch of the represented calendar date). -/
inductive ModDateResult where
  | pyNone : ModDateResult
  | emptyStr : ModDateResult
  | dayStr : Int → ModDateResult
deriving DecidableEq, Repr

/-- Lines 202-220, `get_issues_file_mod_date`: when the issues snapshot
file is absent the result is the empty string; otherwise the modification
timestamp (seconds) is converted to a datetime, shifted back one day
(86400 seconds) and formatted at day granularity.  The timestamp argument
is None exactly when `os.path.isfile` fails. -/
def get_issues_file_mod_date (mtimeSeconds : Option Int) : ModDateResult :=
  match mtimeSeconds with
  | none => ModDateResult.emptyStr
  | some t => ModDateResult.dayStr ((t - 86400).fdiv 86400)

/-- The two fetch routes of `get_project_data`. -/
inductive FetchMode where
  | fullFetch : FetchMode
  | incrementalFetch : Int → FetchMode
deriving DecidableEq, Repr

/-- Python truthiness of a `ModDateResult`: None and the empty string are
falsy, a date string is nonempty hence truthy. -/
def modDateTruthy : ModDateResult → Bool
  | ModDateResult.pyNone => false
  | ModDateResult.emptyStr => false
  | ModDateResult.dayStr _ => true

/-- Lines 475-489, the watermark resolution of `get_project_data` on the
`from_date=None` path: the from date is taken from the issues file
modification date; a falsy from date routes to the full fetch of every
issue of the project (line 484), a truthy one to the incremental fetch of
issues updated or logged on or after that date (line 489). -/
def get_project_data_fetch_mode (mtimeSeconds : Option Int) : FetchMode :=
  match get_issues_file_mod_date mtimeSeconds with
  | ModDateResult.dayStr d => FetchMode.incrementalFetch d
  | _ => FetchMode.fullFetch

/-! Helper lemmas about deduplication, sorting and the merge branches. -/

theorem contains_mem_iff {α : Type} [BEq α] [LawfulBEq α] {l : List α} {a : α} :
    l.contains a = true ↔ a ∈ l := by simp

theorem mem_of_mem_dedupGo {seen : List Nat} {l : List Row} {r : Row}
    (h : r ∈ dedupGo seen l) : r ∈ l := by
  induction l generalizing seen with
  | nil => simp [dedupGo] at h
  | cons a t ih =>
    by_cases hc : seen.contains a.key
    · simp only [dedupGo, if_pos hc] at h
      exact List.mem_cons_of_mem _ (ih h)
    · simp only [dedupGo, if_neg hc, List.mem_cons] at h
      rcases h with h | h
      · exact h ▸ List.mem_cons_self _ _
      · exact List.mem_cons_of_mem _ (ih h)

theorem dedupGo_keys_nodup_and_not_seen (seen : List Nat) (l : List Row) :
    ((dedupGo seen l).map Row.key).Nodup ∧ ∀ r ∈ dedupGo seen l, r.key ∉ seen := by
  induction l generalizing seen with
  | nil => simp [dedupGo]
  | cons a t ih =>
    by_cases hc : seen.contains a.key
    · simpa only [dedupGo, if_pos hc] using ih seen
    · have hmem : a.key ∉ seen := by
        intro hk
        exact hc (contains_mem_iff.mpr hk)
      obtain ⟨ihn, ihs⟩ := ih (a.key :: seen)
      refine ⟨?_, ?_⟩
      · simp only [dedupGo, if_neg hc, List.map_cons, List.nodup_cons]
        refine ⟨?_, ihn⟩
        intro hk
        obtain ⟨r, hr, hrk⟩ := List.mem_map.mp hk
        exact (ihs r hr) (hrk ▸ List.mem_cons_self _ _)
      · intro r hr
        simp only [dedupGo, if_neg hc, List.mem_cons] at hr
        rcases hr with hr | hr
        · exact hr ▸ hmem
        · intro hk
          exact (ihs r hr) (List.mem_cons_of_mem _ hk)

theorem dedupGo_keys_nodup (seen : List Nat) (l : List Row) :
    ((dedupGo seen l).map Row.key).Nodup :=
  (dedupGo_keys_nodup_and_not_seen seen l).1

theorem dedupGo_eq_self {seen : List Nat} {l : List Row}
    (hn : (l.map Row.key).Nodup) (hs : ∀ r ∈ l, r.key ∉ seen) :
    dedupGo seen l = l := by
  induction l generalizing seen with
  | nil => rfl
  | cons a t ih =>
    have hc : ¬ seen.contains a.key := by
      intro hk
      exact hs a (List.mem_cons_self _ _) (contains_mem_iff.mp hk)
    simp only [List.map_cons, List.nodup_cons] at hn
    have ht : dedupGo (a.key :: seen) t = t := by
      refine ih hn.2 ?_
      intro r hr
      simp only [List.mem_cons]
      push_neg
      refine ⟨?_, hs r (List.mem_cons_of_mem _ hr)⟩
      intro hk
      exact hn.1 (hk ▸ List.mem_map_of_mem Row.key hr)
    simp only [dedupGo, if_neg hc, ht]

theorem mem_dedupGo_of {seen : List Nat} {l : List Row} {r : Row}
    (hn : (l.map Row.key).Nodup) (hr : r ∈ l) (hs : r.key ∉ seen) :
    r ∈ dedupGo seen l := by
  induction l generalizing seen with
  | nil => simp at hr
  | cons a t ih =>
    simp only [List.map_cons, List.nodup_cons] at hn
    rcases List.mem_cons.mp hr with hr | hr
    · subst hr
      have hc : ¬ seen.contains r.key := fun hk => hs (contains_mem_iff.mp hk)
      simp only [dedupGo, if_neg hc]
      exact List.mem_cons_self _ _
    · have hne : r.key ≠ a.key := by
        intro hk
        exact hn.1 (hk ▸ List.mem_map_of_mem Row.key hr)
      by_cases hc : seen.contains a.key
      · simp only [dedupGo, if_pos hc]
        exact ih hn.2 hr hs
      · simp only [dedupGo, if_neg hc]
        refine List.mem_cons_of_mem _ (ih hn.2 hr ?_)
        simp only [List.mem_cons]
        push_neg
        exact ⟨hne, hs⟩

theorem dedupGo_congr {s₁ s₂ : List Nat} (h : ∀ k, k ∈ s₁ ↔ k ∈ s₂) (l : List Row) :
    dedupGo s₁ l = dedupGo s₂ l := by
  induction l generalizing s₁ s₂ with
  | nil => rfl
  | cons a t ih =>
    have hc : s₁.contains a.key = s₂.contains a.key := by
      by_cases hk : a.key ∈ s₁
      · rw [contains_mem_iff.mpr hk, contains_mem_iff.mpr ((h a.key).mp hk)]
      · have hk₂ : a.key ∉ s₂ := fun hx => hk ((h a.key).mpr hx)
        rw [Bool.eq_iff_iff]
        constructor
        · intro hx; exact absurd (contains_mem_iff.mp hx) hk
        · intro hx; exact absurd (contains_mem_iff.mp hx) hk₂
    by_cases hk : s₁.contains a.key
    · simp only [dedupGo, hk, hc ▸ hk, if_true]
      exact ih h
    · have hk₂ : ¬ s₂.contains a.key := hc ▸ hk
      simp only [dedupGo, if_neg hk, if_neg hk₂]
      refine congrArg _ (ih ?_)
      intro k
      simp only [List.mem_cons]
      exact or_congr Iff.rfl (h k)

theorem dedupGo_append (seen : List Nat) (u v : List Row) :
    dedupGo seen (u ++ v) = dedupGo seen u ++ dedupGo (u.map Row.key ++ seen) v := by
  induction u generalizing seen with
  | nil => simp [dedupGo]
  | cons a t ih =>
    by_cases hc : seen.contains a.key
    · have hcongr : dedupGo (t.map Row.key ++ seen) v =
          dedupGo ((a :: t).map Row.key ++ seen) v := by
        refine dedupGo_congr ?_ v
        intro k
        simp only [List.map_cons, List.mem_append, List.mem_cons]
        constructor
        · intro hk
          rcases hk with hk | hk
          · exact Or.inl (Or.inr hk)
          · exact Or.inr hk
        · intro hk
          rcases hk with (hk | hk) | hk
          · exact Or.inr (hk ▸ contains_mem_iff.mp hc)
          · exact Or.inl hk
          · exact Or.inr hk
      have h1 : dedupGo seen ((a :: t) ++ v) = dedupGo seen (t ++ v) := by
        simp only [List.cons_append, dedupGo, if_pos hc]
        rfl
      have h2 : dedupGo seen (a :: t) = dedupGo seen t := by
        simp only [dedupGo, if_pos hc]
      rw [h1, ih seen, h2, hcongr]
    · have hcongr : dedupGo (t.map Row.key ++ (a.key :: seen)) v =
          dedupGo ((a :: t).map Row.key ++ seen) v := by
        refine dedupGo_congr ?_ v
        intro k
        simp only [List.map_cons, List.mem_append, List.mem_cons]
        tauto
      have h1 : dedupGo seen ((a :: t) ++ v) = a :: dedupGo (a.key :: seen) (t ++ v) := by
        simp only [List.cons_append, dedupGo, if_neg hc]
        rfl
      have h2 : dedupGo seen (a :: t) = a :: dedupGo (a.key :: seen) t := by
        simp only [dedupGo, if_neg hc]
      rw [h1, ih (a.key :: seen), h2, hcongr, List.cons_append]

theorem perm_sort_values (l : List Row) : (sort_values l).Perm l :=
  List.perm_insertionSort rowLe l

theorem sorted_sort_values (l : List Row) : (sort_values l).Sorted rowLe :=
  List.sorted_insertionSort rowLe l

/-- Two lists of rows that are permutations of each other, both sorted on
the key column, with pairwise distinct key values, are equal. -/
theorem eq_of_perm_sorted_nodup_keys {l₁ l₂ : List Row}
    (hp : l₁.Perm l₂) (h₁ : l₁.Sorted rowLe) (h₂ : l₂.Sorted rowLe)
    (hn : (l₁.map Row.key).Nodup) : l₁ = l₂ := by
  have hlt₁ : l₁.Sorted (fun a b => a.key < b.key) := by
    have hne : l₁.Pairwise (fun a b => a.key ≠ b.key) := List.pairwise_map.mp hn
    exact (h₁.and hne).imp (fun h => lt_of_le_of_ne h.1 h.2)
  have hn₂ : (l₂.map Row.key).Nodup := ((hp.map Row.key).nodup_iff).mp hn
  have hlt₂ : l₂.Sorted (fun a b => a.key < b.key) := by
    have hne : l₂.Pairwise (fun a b => a.key ≠ b.key) := List.pairwise_map.mp hn₂
    exact (h₂.and hne).imp (fun h => lt_of_le_of_ne h.1 h.2)
  haveI : IsAntisymm Row (fun a b => a.key < b.key) :=
    ⟨fun a b hab hba => absurd (Nat.lt_trans hab hba) (lt_irrefl _)⟩
  exact List.eq_of_perm_of_sorted hp hlt₁ hlt₂

theorem dataframe_has_rows_iff {df : Option (List Row)} :
    dataframe_has_rows df = true ↔ ∃ l, df = some l ∧ l ≠ [] := by
  cases df with
  | none => simp [dataframe_has_rows]
  | some l =>
    cases l with
    | nil => simp [dataframe_has_rows]
    | cons a t => simp [dataframe_has_rows]

/-- The both-present branch of `update_dataframe`, as an equation. -/
theorem update_dataframe_both {e u : List Row} (he : e ≠ []) (hu : u ≠ []) :
    update_dataframe (some e) (some u) =
      some (sort_values (drop_duplicates (u ++ removeUpdatedIssues e u))) := by
  have he' : dataframe_has_rows (some e) = true :=
    dataframe_has_rows_iff.mpr ⟨e, rfl, he⟩
  have hu' : dataframe_has_rows (some u) = true :=
    dataframe_has_rows_iff.mpr ⟨u, rfl, hu⟩
  simp [update_dataframe, he', hu']

theorem update_dataframe_no_existing {existing_df : Option (List Row)} {u : List Row}
    (he : dataframe_has_rows existing_df = false) (hu : u ≠ []) :
    update_dataframe existing_df (some u) = some u := by
  have hu' : dataframe_has_rows (some u) = true := dataframe_has_rows_iff.mpr ⟨u, rfl, hu⟩
  simp [update_dataframe, he, hu']

theorem update_dataframe_no_updated {e : List Row} {updated_df : Option (List Row)}
    (hu : dataframe_has_rows updated_df = false) (he : e ≠ []) :
    update_dataframe (some e) updated_df = some e := by
  have he' : dataframe_has_rows (some e) = true := dataframe_has_rows_iff.mpr ⟨e, rfl, he⟩
  simp [update_dataframe, hu, he']

theorem update_dataframe_neither {existing_df updated_df : Option (List Row)}
    (he : dataframe_has_rows existing_df = false)
    (hu : dataframe_has_rows updated_df = false) :
    update_dataframe existing_df updated_df = none := by
  simp [update_dataframe, he, hu]

/-- Repeating a both-sides-present merge with the same incoming rows
reproduces the first merge result exactly. -/
theorem merge_merge_eq_merge_both {e u : List Row} (he : e ≠ []) (hu : u ≠ []) :
    update_dataframe (update_dataframe (some e) (some u)) (some u)
      = update_dataframe (some e) (some u) := by
  rw [update_dataframe_both he hu]
  set F := removeUpdatedIssues e u with hF
  set DD := dedupGo [] u with hDD
  set W := dedupGo (u.map Row.key) F with hW
  have hdecomp : drop_duplicates (u ++ F) = DD ++ W := by
    rw [drop_duplicates, dedupGo_append, List.append_nil]
  set M := sort_values (drop_duplicates (u ++ F)) with hM
  have hDDne : DD ≠ [] := by
    cases u with
    | nil => exact absurd rfl hu
    | cons a t =>
      rw [hDD]
      simp only [dedupGo, List.contains_nil, Bool.false_eq_true, if_neg]
      exact List.cons_ne_nil _ _
  have hMne : M ≠ [] := by
    intro hnil
    have hlen : M.length = (DD ++ W).length := by
      rw [hM, hdecomp]
      exact (perm_sort_values _).length_eq
    rw [hnil] at hlen
    simp only [List.length_nil, List.length_append] at hlen
    have : DD = [] := List.length_eq_zero.mp (by omega)
    exact hDDne this
  rw [update_dataframe_both hMne hu]
  set p : Row → Bool := fun r => !((issueKeysOf u).contains r.issue_key) with hp
  set fM := removeUpdatedIssues M u with hfM
  have hDDfilter : DD.filter p = [] := by
    rw [List.filter_eq_nil_iff]
    intro r hr
    have hru : r ∈ u := mem_of_mem_dedupGo hr
    have hcont : (issueKeysOf u).contains r.issue_key = true :=
      contains_mem_iff.mpr (List.mem_map_of_mem Row.issue_key hru)
    simp only [hp, Bool.not_eq_true, Bool.not_eq_false, hcont, Bool.not_true]
  have hWfilter : W.filter p = W := by
    rw [List.filter_eq_self]
    intro r hr
    have hrF : r ∈ F := mem_of_mem_dedupGo hr
    exact (List.mem_filter.mp hrF).2
  have hfMW : fM.Perm W := by
    have h1 : fM = M.filter p := rfl
    have h2 : (M.filter p).Perm ((DD ++ W).filter p) := by
      rw [hM, hdecomp]
      exact (perm_sort_values _).filter p
    have h3 : (DD ++ W).filter p = W := by
      rw [List.filter_append, hDDfilter, hWfilter, List.nil_append]
    rw [h1]
    exact h3 ▸ h2
  have hWprops := dedupGo_keys_nodup_and_not_seen (u.map Row.key) F
  have hfMnodup : (fM.map Row.key).Nodup := ((hfMW.map Row.key).nodup_iff).mpr hWprops.1
  have hfMseen : ∀ r ∈ fM, r.key ∉ u.map Row.key := fun r hr =>
    hWprops.2 r (hfMW.subset hr)
  have hdd2 : drop_duplicates (u ++ fM) = DD ++ fM := by
    rw [drop_duplicates, dedupGo_append, List.append_nil,
      dedupGo_eq_self hfMnodup hfMseen]
  have hkeys1 : ((DD ++ fM).map Row.key).Nodup := by
    rw [List.map_append]
    refine List.Nodup.append (dedupGo_keys_nodup [] u) hfMnodup ?_
    intro k hk1 hk2
    obtain ⟨r, hr, hrk⟩ := List.mem_map.mp hk1
    obtain ⟨s, hs, hsk⟩ := List.mem_map.mp hk2
    have hru : r ∈ u := mem_of_mem_dedupGo hr
    refine hfMseen s hs ?_
    rw [hsk, ← hrk]
    exact List.mem_map_of_mem Row.key hru
  rw [hdd2]
  have hgoal : sort_values (DD ++ fM) = M := by
    refine eq_of_perm_sorted_nodup_keys ?_ (sorted_sort_values _) ?_ ?_
    · have s1 : (sort_values (DD ++ fM)).Perm (DD ++ fM) := perm_sort_values _
      have s2 : (DD ++ fM).Perm (DD ++ W) := List.Perm.append_left DD hfMW
      have s4 : (drop_duplicates (u ++ F)).Perm M := by
        rw [hM]
        exact (perm_sort_values _).symm
      exact (s1.trans s2).trans (hdecomp ▸ s4)
    · rw [hM]
      exact sorted_sort_values _
    · exact ((perm_sort_values (DD ++ fM)).map Row.key).nodup_iff.mpr hkeys1
  rw [hgoal]

theorem update_dataframe_ne_none {existing_df updated_df : Option (List Row)}
    (h : dataframe_has_rows existing_df = true ∨ dataframe_has_rows updated_df = true) :
    update_dataframe existing_df updated_df ≠ none := by
  cases hb2 : dataframe_has_rows updated_df with
  | true =>
    obtain ⟨u, hdf, hne⟩ := dataframe_has_rows_iff.mp hb2
    subst hdf
    cases hb1 : dataframe_has_rows existing_df with
    | true =>
      obtain ⟨e, hdf2, hne2⟩ := dataframe_has_rows_iff.mp hb1
      subst hdf2
      rw [update_dataframe_both hne2 hne]
      simp
    | false =>
      rw [update_dataframe_no_existing hb1 hne]
      simp
  | false =>
    cases hb1 : dataframe_has_rows existing_df with
    | true =>
      obtain ⟨e, hdf2, hne2⟩ := dataframe_has_rows_iff.mp hb1
      subst hdf2
      rw [update_dataframe_no_updated hb2 hne2]
      simp
    | false =>
      rcases h with h | h
      · rw [hb1] at h
        exact absurd h (by simp)
      · rw [hb2] at h
        exact absurd h (by simp)

theorem refresh_all_ok (inputs : List (Option (List Row) × Option (List Row)))
    (h : ∀ p ∈ inputs, dataframe_has_rows p.1 = true ∨ dataframe_has_rows p.2 = true) :
    refresh_all inputs = Except.ok (inputs.map fun p => (update_dataframe p.1 p.2).getD []) := by
  induction inputs with
  | nil => rfl
  | cons q rest ih =>
    obtain ⟨e, u⟩ := q
    have hq := h _ (List.mem_cons_self _ _)
    have hne := update_dataframe_ne_none hq
    have hok : refresh_data_part e u = Except.ok ((update_dataframe e u).getD []) := by
      unfold refresh_data_part
      cases hud : update_dataframe e u with
      | none => exact absurd hud hne
      | some df => simp
    simp only [refresh_all, hok, ih (fun p hp => h p (List.mem_cons_of_mem _ hp)),
      List.map_cons]

/-! The claims. -/

/-- C1 (confirmed): full-replacement invariant of the merge.  With both
sides non-empty, a row of the existing snapshot whose foreign-key value
occurs in the incoming batch can only be present in the merge result by
being itself one of the incoming rows; in particular a row with the same
key then appears in the incoming batch, so no row referencing such a
parent survives from the existing snapshot except through the batch. -/
theorem update_dataframe_full_replacement
    (existing_rows updated_rows : List Row) (r : Row)
    (hr : r ∈ existing_rows)
    (hfk : r.issue_key ∈ updated_rows.map Row.issue_key)
    (hmem : r ∈ (update_dataframe (some existing_rows) (some updated_rows)).getD []) :
    r ∈ updated_rows := by
  have he : existing_rows ≠ [] := List.ne_nil_of_mem hr
  have hu : updated_rows ≠ [] := by
    rcases List.mem_map.mp hfk with ⟨s, hs, _⟩
    exact List.ne_nil_of_mem hs
  rw [update_dataframe_both he hu] at hmem
  simp only [Option.getD_some] at hmem
  have h2 : r ∈ updated_rows ++ removeUpdatedIssues existing_rows updated_rows :=
    mem_of_mem_dedupGo ((perm_sort_values _).mem_iff.mp hmem)
  rcases List.mem_append.mp h2 with h3 | h3
  · exact h3
  · exfalso
    have hpred := (List.mem_filter.mp h3).2
    have hcont : (issueKeysOf updated_rows).contains r.issue_key = true :=
      contains_mem_iff.mpr hfk
    simp [hcont] at hpred
    exact hpred hfk

/-- Witness for C1 at a concrete input where every hypothesis holds. -/
theorem update_dataframe_full_replacement_witness :
    (⟨1, "A", "x"⟩ : Row) ∈
      (update_dataframe (some [⟨1, "A", "x"⟩]) (some [⟨1, "A", "x"⟩])).getD [] ∧
    (⟨1, "A", "x"⟩ : Row) ∈ [(⟨1, "A", "x"⟩ : Row)] :=
  ⟨by decide,
   update_dataframe_full_replacement [⟨1, "A", "x"⟩] [⟨1, "A", "x"⟩] ⟨1, "A", "x"⟩
     (by decide) (by decide) (by decide)⟩

/-- C2 counterexample: an existing row referencing parent B, absent from
the incoming batch, is nevertheless dropped from the merge result because
an incoming row for parent A carries the same key value 1 and wins the
key-based deduplication. -/
theorem update_dataframe_preservation_counterexample :
    update_dataframe (some [⟨1, "B", "pb"⟩]) (some [⟨1, "A", "pa"⟩]) =
      some [⟨1, "A", "pa"⟩] ∧
    "B" ∉ ([(⟨1, "A", "pa"⟩ : Row)].map Row.issue_key) ∧
    (⟨1, "B", "pb"⟩ : Row) ∉
      (update_dataframe (some [⟨1, "B", "pb"⟩]) (some [⟨1, "A", "pa"⟩])).getD [] := by
  decide

/-- C2 (amended): with both sides non-empty, every existing row whose
foreign-key value is absent from the incoming batch is present unchanged
in the merge result, provided the key values of the existing snapshot are
pairwise distinct (the documented Snapshot invariant) and the row's key
value does not collide with any incoming row's key. -/
theorem update_dataframe_preservation_amended
    (existing_rows updated_rows : List Row) (r : Row)
    (hu : updated_rows ≠ [])
    (hr : r ∈ existing_rows)
    (hfk : r.issue_key ∉ updated_rows.map Row.issue_key)
    (hkey : r.key ∉ updated_rows.map Row.key)
    (hnodup : (existing_rows.map Row.key).Nodup) :
    r ∈ (update_dataframe (some existing_rows) (some updated_rows)).getD [] := by
  have he : existing_rows ≠ [] := List.ne_nil_of_mem hr
  rw [update_dataframe_both he hu]
  simp only [Option.getD_some]
  rw [(perm_sort_values _).mem_iff, drop_duplicates, dedupGo_append, List.append_nil]
  refine List.mem_append.mpr (Or.inr ?_)
  have hrF : r ∈ removeUpdatedIssues existing_rows updated_rows := by
    refine List.mem_filter.mpr ⟨hr, ?_⟩
    cases hcb : (issueKeysOf updated_rows).contains r.issue_key with
    | false => rfl
    | true => exact absurd (contains_mem_iff.mp hcb) hfk
  have hFnodup : ((removeUpdatedIssues existing_rows updated_rows).map Row.key).Nodup := by
    have hsub : (removeUpdatedIssues existing_rows updated_rows).Sublist existing_rows :=
      List.filter_sublist _
    exact (hsub.map Row.key).nodup hnodup
  exact mem_dedupGo_of hFnodup hrF hkey

/-- Witness for the amended C2 at a concrete input. -/
theorem update_dataframe_preservation_amended_witness :
    (⟨5, "B", "x"⟩ : Row) ∈
      (update_dataframe (some [⟨5, "B", "x"⟩]) (some [⟨1, "A", "y"⟩])).getD [] :=
  update_dataframe_preservation_amended [⟨5, "B", "x"⟩] [⟨1, "A", "y"⟩] ⟨5, "B", "x"⟩
    (by decide) (by decide) (by decide) (by decide) (by decide)

/-- C3 counterexample: with no existing snapshot the merge returns the
incoming rows as they are; remerging the same batch then sorts them, so
the second merge differs from the first when the batch is not sorted. -/
theorem update_dataframe_idempotent_counterexample :
    update_dataframe (update_dataframe none (some [⟨2, "A", "x"⟩, ⟨1, "A", "y"⟩]))
        (some [⟨2, "A", "x"⟩, ⟨1, "A", "y"⟩]) ≠
      update_dataframe none (some [⟨2, "A", "x"⟩, ⟨1, "A", "y"⟩]) := by
  decide

/-- C3 (amended): merging the same incoming batch into its own merge
result reproduces that result, provided the existing side of the first
merge has rows — or, when it does not, provided the incoming batch is
already sorted ascending with pairwise distinct key values (the shape the
returned-as-is batch would otherwise lack). -/
theorem update_dataframe_idempotent_amended
    (existing_df : Option (List Row)) (incoming : List Row)
    (h : dataframe_has_rows existing_df = true ∨
      ((incoming.map Row.key).Nodup ∧ incoming.Sorted rowLe)) :
    update_dataframe (update_dataframe existing_df (some incoming)) (some incoming)
      = update_dataframe existing_df (some incoming) := by
  by_cases hu : incoming = []
  · subst hu
    have hu' : dataframe_has_rows (some ([] : List Row)) = false := rfl
    cases hb : dataframe_has_rows existing_df with
    | true =>
      obtain ⟨e, hdf, hne⟩ := dataframe_has_rows_iff.mp hb
      subst hdf
      rw [update_dataframe_no_updated hu' hne, update_dataframe_no_updated hu' hne]
    | false =>
      rw [update_dataframe_neither hb hu',
        update_dataframe_neither
          (show dataframe_has_rows (none : Option (List Row)) = false from rfl) hu']
  · cases hb : dataframe_has_rows existing_df with
    | true =>
      obtain ⟨e, hdf, hne⟩ := dataframe_has_rows_iff.mp hb
      subst hdf
      exact merge_merge_eq_merge_both hne hu
    | false =>
      have hns : (incoming.map Row.key).Nodup ∧ incoming.Sorted rowLe := by
        rcases h with h | h
        · rw [hb] at h
          exact absurd h (by simp)
        · exact h
      rw [update_dataframe_no_existing hb hu, update_dataframe_both hu hu]
      have hFnil : removeUpdatedIssues incoming incoming = [] := by
        rw [removeUpdatedIssues, List.filter_eq_nil_iff]
        intro r hr
        have hcont : (issueKeysOf incoming).contains r.issue_key = true :=
          contains_mem_iff.mpr (List.mem_map_of_mem Row.issue_key hr)
        simp only [Bool.not_eq_true, Bool.not_eq_false, hcont, Bool.not_true]
      rw [hFnil, List.append_nil]
      have hD : drop_duplicates incoming = incoming :=
        dedupGo_eq_self hns.1 (by intro r _; simp)
      rw [hD]
      have hS : sort_values incoming = incoming :=
        eq_of_perm_sorted_nodup_keys (perm_sort_values _) (sorted_sort_values _) hns.2
          (((perm_sort_values incoming).map Row.key).nodup_iff.mpr hns.1)
      rw [hS]

/-- Witness for the amended C3 at a concrete input. -/
theorem update_dataframe_idempotent_amended_witness :
    update_dataframe (update_dataframe (some [⟨2, "B", "x"⟩]) (some [⟨1, "A", "y"⟩]))
        (some [⟨1, "A", "y"⟩]) =
      update_dataframe (some [⟨2, "B", "x"⟩]) (some [⟨1, "A", "y"⟩]) :=
  update_dataframe_idempotent_amended (some [⟨2, "B", "x"⟩]) [⟨1, "A", "y"⟩]
    (Or.inl (by decide))

/-- C4 counterexample: when only the incoming side has rows the merge
returns it as is, so a batch with a duplicated key and out-of-order keys
is a merge result that is neither duplicate-free nor sorted. -/
theorem update_dataframe_invariants_counterexample :
    update_dataframe none (some [⟨2, "A", "x"⟩, ⟨1, "A", "y"⟩, ⟨1, "B", "z"⟩]) =
      some [⟨2, "A", "x"⟩, ⟨1, "A", "y"⟩, ⟨1, "B", "z"⟩] ∧
    ¬ ((([⟨2, "A", "x"⟩, ⟨1, "A", "y"⟩, ⟨1, "B", "z"⟩] : List Row).map Row.key).Nodup ∧
       ([⟨2, "A", "x"⟩, ⟨1, "A", "y"⟩, ⟨1, "B", "z"⟩] : List Row).Sorted rowLe) := by
  decide

/-- C4 (amended): every merge result of the both-sides-present branch has
pairwise distinct key-column values and is sorted ascending by the key
column; the results of the one-sided branches are returned as received. -/
theorem update_dataframe_sorted_nodup_amended
    (existing_rows updated_rows result : List Row)
    (he : existing_rows ≠ []) (hu : updated_rows ≠ [])
    (hres : update_dataframe (some existing_rows) (some updated_rows) = some result) :
    (result.map Row.key).Nodup ∧ result.Sorted rowLe := by
  rw [update_dataframe_both he hu] at hres
  have hres' := Option.some.inj hres
  subst hres'
  refine ⟨?_, sorted_sort_values _⟩
  exact ((perm_sort_values _).map Row.key).nodup_iff.mpr (dedupGo_keys_nodup [] _)

/-- Witness for the amended C4 at a concrete input. -/
theorem update_dataframe_sorted_nodup_amended_witness :
    (([⟨1, "A", "y"⟩, ⟨2, "B", "x"⟩] : List Row).map Row.key).Nodup ∧
    ([⟨1, "A", "y"⟩, ⟨2, "B", "x"⟩] : List Row).Sorted rowLe :=
  update_dataframe_sorted_nodup_amended [⟨2, "B", "x"⟩] [⟨1, "A", "y"⟩]
    [⟨1, "A", "y"⟩, ⟨2, "B", "x"⟩] (by decide) (by decide) (by decide)

/-- C5 (code bug): with neither an existing snapshot nor incoming rows the
merge itself reports the soft failure and returns the absent value without
raising; but the caller refresh_data_part then invokes to_csv on the
Python None result, which raises AttributeError, and the per-table loop of
get_project_data has no handler, so the loop aborts (a later table with
data is never processed) instead of continuing as the claim requires. -/
theorem merge_no_data_soft_failure_but_loop_aborts :
    update_dataframe none (some []) = none ∧
    update_dataframe_message none (some []) =
      some "update_dataframe(): there is neither an existing nor updated dataframe passed" ∧
    refresh_data_part none (some []) =
      Except.error "AttributeError: NoneType object has no attribute to_csv" ∧
    refresh_all [(none, some []), (some [⟨1, "A", "x"⟩], some [])] =
      Except.error "AttributeError: NoneType object has no attribute to_csv" ∧
    refresh_data_part (some [⟨1, "A", "x"⟩]) (some []) = Except.ok [⟨1, "A", "x"⟩] :=
  ⟨rfl, rfl, rfl, rfl, rfl⟩

/-- C6 counterexample: when no snapshot file exists the resolution returns
the empty string — a falsy value, but not Python None as claimed. -/
theorem mod_date_empty_string_not_none :
    get_issues_file_mod_date none = ModDateResult.emptyStr ∧
    ModDateResult.emptyStr ≠ ModDateResult.pyNone :=
  ⟨rfl, by decide⟩

/-- C6 (amended): with no snapshot file the resolution yields the empty
string (the falsy absent-watermark signal) and routes to the full fetch of
every record; with a file of modification time t (seconds) it yields the
day-granular date one day earlier than t — the day number of t minus one —
and routes to the incremental fetch from that date. -/
theorem watermark_resolution_amended :
    get_issues_file_mod_date none = ModDateResult.emptyStr ∧
    get_project_data_fetch_mode none = FetchMode.fullFetch ∧
    ∀ t : Int,
      get_issues_file_mod_date (some t) = ModDateResult.dayStr (t.fdiv 86400 - 1) ∧
      get_project_data_fetch_mode (some t) = FetchMode.incrementalFetch (t.fdiv 86400 - 1) := by
  refine ⟨rfl, rfl, ?_⟩
  intro t
  have harith : (t - 86400).fdiv 86400 = t.fdiv 86400 - 1 := by
    rw [Int.fdiv_eq_ediv _ (by norm_num), Int.fdiv_eq_ediv _ (by norm_num)]
    rw [show t - 86400 = t + -1 * 86400 by ring]
    rw [Int.add_mul_ediv_right t (-1) (by norm_num : (86400 : Int) ≠ 0)]
    ring
  constructor
  · show ModDateResult.dayStr ((t - 86400).fdiv 86400) = _
    rw [harith]
  · simp only [get_project_data_fetch_mode, get_issues_file_mod_date, harith]

/-- A concrete parent record whose stakeholder custom field holds two
names; the failing input for the stakeholders column. -/
def sampleIssue : IssueFields :=
  { key := "PRJ-1"
    summary := "sample"
    description := some "desc"
    priority := "High"
    issuetype := "Bug"
    status_name := "Open"
    customfield_10800 := some ["Alice", "Bob"]
    created := some "2020-01-01T00:00:00"
    duedate := none
    lastViewed := none
    resolutiondate := none
    resolution := "None"
    aggregatetimespent := some 60
    assignee := "Carol"
    reporter := "Dan"
    components := ["Core", "UI"]
    labels := ["backend", "api"] }

/-- C7 (code bug): line 277 passes the stakeholder list through ifnull,
which always returns its substitute list containing one empty string, so
the stakeholders column is the empty string even when the record carries
stakeholder names; the analogous components and labels columns
(lines 290-291) are joined directly and come out as claimed. -/
theorem issues_stakeholders_column_empty :
    (data_part_issues_row sampleIssue).stakeholders = "" ∧
    (data_part_issues_row sampleIssue).stakeholders ≠ joinComma ["Alice", "Bob"] ∧
    (data_part_issues_row sampleIssue).components = joinComma ["Core", "UI"] ∧
    (data_part_issues_row sampleIssue).labels = joinComma ["backend", "api"] ∧
    data_part_issues [sampleIssue] = [data_part_issues_row sampleIssue] := by
  refine ⟨rfl, ?_, rfl, rfl, rfl⟩
  decide

/-- C8 counterexample: a six-table pass in which the first table has no
data on either side ends with the AttributeError of the no-data merge;
the remaining five tables, each of which would succeed on its own, are
never processed, so the loop does not proceed regardless of outcome. -/
theorem refresh_loop_abort_counterexample :
    refresh_all [(none, some []),
      (some [⟨1, "A", "a"⟩], some []),
      (some [⟨1, "A", "b"⟩], some []),
      (some [⟨1, "A", "c"⟩], some []),
      (some [⟨1, "A", "d"⟩], some []),
      (some [⟨1, "A", "e"⟩], some [])] =
      Except.error "AttributeError: NoneType object has no attribute to_csv" ∧
    refresh_data_part (some [⟨1, "A", "a"⟩]) (some []) = Except.ok [⟨1, "A", "a"⟩] :=
  ⟨rfl, rfl⟩

/-- C8 (amended): the registry lists the six tables in order, and the loop
processes every table in that order and continues regardless of each
merged value — provided every table has data on at least one side, since
a raised per-table exception (see the counterexample) ends the remaining
iterations rather than being caught. -/
theorem refresh_loop_processes_all_amended
    (inputs : List (Option (List Row) × Option (List Row)))
    (h : ∀ p ∈ inputs, dataframe_has_rows p.1 = true ∨ dataframe_has_rows p.2 = true) :
    data_part_settings.map (fun s => s.1) =
      ["issues", "issue_components", "issue_labels", "issue_stakeholders",
       "issue_worklogs", "issue_comments"] ∧
    refresh_all inputs = Except.ok (inputs.map fun p => (update_dataframe p.1 p.2).getD []) :=
  ⟨rfl, refresh_all_ok inputs h⟩

/-- Witness for the amended C8 at a concrete two-table input. -/
theorem refresh_loop_processes_all_amended_witness :
    data_part_settings.map (fun s => s.1) =
      ["issues", "issue_components", "issue_labels", "issue_stakeholders",
       "issue_worklogs", "issue_comments"] ∧
    refresh_all [(some [⟨1, "A", "a"⟩], some [⟨2, "B", "b"⟩]), (none, some [⟨1, "A", "c"⟩])] =
      Except.ok
        ([(some [(⟨1, "A", "a"⟩ : Row)], some [(⟨2, "B", "b"⟩ : Row)]),
          (none, some [(⟨1, "A", "c"⟩ : Row)])].map
          fun p => (update_dataframe p.1 p.2).getD []) :=
  refresh_loop_processes_all_amended
    [(some [⟨1, "A", "a"⟩], some [⟨2, "B", "b"⟩]), (none, some [⟨1, "A", "c"⟩])]
    (by decide)

/-- C9 (confirmed): a comment without author information normalizes to a
row whose author column is the sentinel Unknown, with the id, issue key,
created and body columns populated exactly as for an authored comment, and
the comments table built from such a record contains that row rather than
the pass failing. -/
theorem comment_missing_author_unknown
    (k : String) (c : Comment) (i : Nat) (h : c.author = none) :
    comment_to_row i k c =
      { issue_comments_id := i, issue_key := k, author := "Unknown",
        created := string_to_datetime c.created,
        body_text := make_delimit_ready c.body } ∧
    data_part_issue_comments [(k, [c])] =
      [{ issue_comments_id := 1, issue_key := k, author := "Unknown",
         created := string_to_datetime c.created,
         body_text := make_delimit_ready c.body }] := by
  constructor
  · simp [comment_to_row, h]
  · simp [data_part_issue_comments, data_part_issue_comments_go, commentRowsForIssue,
      comment_to_row, h]

/-- Witness for C9 at a concrete authorless comment. -/
theorem comment_missing_author_unknown_witness :
    comment_to_row 3 "PRJ-9" { author := none, created := some "2020-01-02", body := some "hi" } =
      { issue_comments_id := 3, issue_key := "PRJ-9", author := "Unknown",
        created := string_to_datetime (some "2020-01-02"),
        body_text := make_delimit_ready (some "hi") } ∧
    data_part_issue_comments
        [("PRJ-9", [{ author := none, created := some "2020-01-02", body := some "hi" }])] =
      [{ issue_comments_id := 1, issue_key := "PRJ-9", author := "Unknown",
         created := string_to_datetime (some "2020-01-02"),
         body_text := make_delimit_ready (some "hi") }] :=
  comment_missing_author_unknown "PRJ-9"
    { author := none, created := some "2020-01-02", body := some "hi" } 3 rfl

/-- C10 (confirmed): the null test of ifnull compares the type object of
the value with None, which never holds, so for every value — including
non-null truthy objects — and every substitute, ifnull returns the
substitute; every caller therefore receives the substitute, never the
original value. -/
theorem ifnull_always_returns_null_value :
    ∀ value null_value : PyObj,
      typeIsNone value = false ∧ ifnull value null_value = null_value :=
  fun _ _ => ⟨rfl, rfl⟩

end Jira
